import Mathlib

/-!
Verification of the Zoom attendance report analyzer (`app.py`).

The per-upload pipeline of the script is shallowly embedded here:
Python strings are Lean `String`s manipulated through character-list
helpers that model `str.strip`, `str.startswith`, `str.split`;
pandas/numpy floats are modelled by `PFloat` (an exact rational, NaN,
or a signed infinity); fallible steps return `Except PyErr`, where
`PyErr` names the Python exception classes that the script can raise
and that its top-level `except Exception` handler converts into a
user-visible error message.

The numeric model is exact-rational: `round2` is decimal
round-half-to-even, an idealisation of numpy float rounding, and
`parseNumeric` models `pd.to_numeric` on plain decimal literals
(optional sign, digits, optional fractional part); none of the
properties proved below depend on binary-float representation
artifacts or on exotic numeric spellings.
-/

namespace ZoomSpec

/-! ### Python string helpers -/

/-- The whitespace characters removed by Python `str.strip()`. -/
def pyIsSpace (c : Char) : Bool :=
  c == ' ' || c == '\t' || c == '\n' || c == '\r' || c == '\x0b' || c == '\x0c'

/-- Python `s.strip()`. -/
def pstrip (s : String) : String :=
  String.mk (((s.data.dropWhile pyIsSpace).reverse.dropWhile pyIsSpace).reverse)

/-- Python `s.startswith(t)`. -/
def pstartsWith (s t : String) : Bool :=
  t.data.isPrefixOf s.data

/-- Helper for `psplit`: split a character list at every separator. -/
def splitCharAux (sep : Char) : List Char → List Char → List (List Char)
  | [], acc => [acc.reverse]
  | c :: cs, acc =>
    if c == sep then acc.reverse :: splitCharAux sep cs []
    else splitCharAux sep cs (c :: acc)

/-- Python `s.split(sep)` for a single-character separator. -/
def psplit (s : String) (sep : Char) : List String :=
  (splitCharAux sep s.data []).map String.mk

/-- Python `s.lstrip(BOM)` applied after `strip()`, as on line 47 of `app.py`. -/
def cleanLine (l : String) : String :=
  String.mk ((pstrip l).data.dropWhile (fun c => c == '\uFEFF'))

/-! ### Python float model -/

/-- A pandas/numpy scalar: an exact rational, NaN, or a signed infinity. -/
inductive PFloat where
  | rat (q : ℚ)
  | nan
  | inf
  | ninf
deriving DecidableEq

/-- Decimal digits check. -/
def allDigits (l : List Char) : Bool := l.all Char.isDigit

/-- Value of a decimal digit string. -/
def natOfDigits (l : List Char) : ℕ := l.foldl (fun n c => 10 * n + (c.toNat - 48)) 0

/-- Parse an unsigned decimal literal (digits, optionally with a fractional part). -/
def parseUnsignedQ (l : List Char) : Option ℚ :=
  match splitCharAux '.' l [] with
  | [ip] =>
    if ip = [] then none
    else if allDigits ip then some (natOfDigits ip) else none
  | [ip, fp] =>
    if ip = [] ∧ fp = [] then none
    else if allDigits ip ∧ allDigits fp then
      some ((natOfDigits ip : ℚ) + (natOfDigits fp : ℚ) / (10 : ℚ) ^ fp.length)
    else none
  | _ => none

/-- Numeric parse underlying `pd.to_numeric` on a string cell: `some q` on a
plain decimal literal (optional surrounding whitespace, optional sign),
`none` when coercion fails (which pandas represents as NaN). -/
def parseNumeric (s : String) : Option ℚ :=
  match (pstrip s).data with
  | [] => none
  | c :: cs =>
    if c == '-' then (parseUnsignedQ cs).map Neg.neg
    else if c == '+' then parseUnsignedQ cs
    else parseUnsignedQ (c :: cs)

/-- `pd.to_numeric(s, errors='coerce')`: a failed parse becomes NaN. -/
def toNumericP (s : String) : PFloat :=
  match parseNumeric s with
  | some q => PFloat.rat q
  | none => PFloat.nan

/-- Round to nearest integer, ties to even. -/
def roundHalfEven (q : ℚ) : ℤ :=
  let f := ⌊q⌋
  let r := q - f
  if r < 1/2 then f
  else if 1/2 < r then f + 1
  else if f % 2 = 0 then f else f + 1

/-- `Series.round(2)`: round to two decimal places, ties to even. -/
def round2 (q : ℚ) : ℚ := (roundHalfEven (q * 100) : ℚ) / 100

/-- Python float comparison `x >= t` (false on NaN). -/
def pge (x : PFloat) (t : ℚ) : Bool :=
  match x with
  | PFloat.rat q => decide (t ≤ q)
  | PFloat.nan => false
  | PFloat.inf => true
  | PFloat.ninf => false

/-! ### Composite parser (app.py lines 27-37) -/

/-- Line 28: the trimmed line starts with the participant-table marker. -/
def isMarkerLine (l : String) : Bool :=
  pstartsWith (pstrip l) ("Name (original name),Email")

/-- Line 36: a post-marker line is kept when non-blank and not a trailing
"Zoom Report" line. -/
def keepTableLine (l : String) : Bool :=
  !(pstrip l).data.isEmpty && !(pstartsWith (pstrip l) ("Zoom Report"))

/-- The line-splitting loop of lines 27-37; the Bool is
`participant_data_started`. Returns `(meeting_info_lines, participant_data_lines)`. -/
def splitLoop : Bool → List String → List String × List String
  | _, [] => ([], [])
  | started, l :: ls =>
    if isMarkerLine l then
      ((splitLoop true ls).1, l :: (splitLoop true ls).2)
    else if started then
      (if keepTableLine l then ((splitLoop true ls).1, l :: (splitLoop true ls).2)
       else splitLoop true ls)
    else
      (l :: (splitLoop false ls).1, (splitLoop false ls).2)

/-- The composite parser: split the file's lines into the metadata block and
the participant table block. -/
def splitReport (lines : List String) : List String × List String :=
  splitLoop false lines

/-! ### Metadata extractor (app.py lines 40-56) -/

/-- Comma-split a line and strip each part (lines 49 and 52). -/
def partsOf (l : String) : List String := (psplit l ',').map pstrip

/-- Python dict lookup for a dict built by `dict(zip(...))`: the last binding
of a key wins. -/
def dget (m : List (String × String)) (k : String) : Option String :=
  (m.reverse.find? (fun p => p.1 == k)).map Prod.snd

/-- The metadata loop of lines 46-56. `found` is `header_line_found` and
`hdr` is `header_line_parts`; on the first non-empty candidate value line
whose comma-count matches, the zipped dict is returned (the `break`). -/
def extractMetaGo (found : Bool) (hdr : List String) : List String → List (String × String)
  | [] => []
  | l :: ls =>
    let c := cleanLine l
    if pstartsWith c ("Topic,ID,Host") then extractMetaGo true (partsOf c) ls
    else if found ∧ c.data ≠ [] then
      (if (partsOf c).length = hdr.length then List.zip hdr (partsOf c)
       else extractMetaGo found hdr ls)
    else extractMetaGo found hdr ls

/-- Parse the metadata block into the `meeting_metadata` mapping
(empty when no header/value pair is found). -/
def extractMeta (ls : List String) : List (String × String) :=
  extractMetaGo false [] ls

/-! ### Timestamp parsing (app.py lines 71-82) -/

/-- A `datetime` as built by `strptime` with format `%m-%d-%Y %I:%M:%S %p`. -/
structure PyDateTime where
  month : ℕ
  day : ℕ
  year : ℕ
  hour12 : ℕ
  minute : ℕ
  second : ℕ
  isPM : Bool
deriving DecidableEq

def isLeapYear (y : ℕ) : Bool :=
  (y % 4 == 0 && y % 100 != 0) || y % 400 == 0

def daysInMonth (y m : ℕ) : ℕ :=
  if m = 2 then (if isLeapYear y then 29 else 28)
  else if m = 4 ∨ m = 6 ∨ m = 9 ∨ m = 11 then 30
  else 31

/-- A 1-2 digit field (`%m`, `%d`, `%I`, `%M`, `%S`). -/
def parseDigits2 (s : String) : Option ℕ :=
  if s.data ≠ [] ∧ s.data.length ≤ 2 ∧ allDigits s.data then some (natOfDigits s.data)
  else none

/-- A 1-4 digit year (`%Y`). -/
def parseDigits4 (s : String) : Option ℕ :=
  if s.data ≠ [] ∧ s.data.length ≤ 4 ∧ allDigits s.data then some (natOfDigits s.data)
  else none

/-- `%p`: AM/PM, case-insensitive; `true` means PM. -/
def parseAmPmT (s : String) : Option Bool :=
  if s.data.map Char.toUpper = [ 'A', 'M' ] then some false
  else if s.data.map Char.toUpper = [ 'P', 'M' ] then some true
  else none

/-- `datetime.strptime(s, "%m-%d-%Y %I:%M:%S %p")`: `none` models the
`ValueError` raised on a malformed or out-of-range timestamp. -/
def strptime_mdY (s : String) : Option PyDateTime :=
  match psplit s ' ' with
  | [ds, ts, ps] =>
    match psplit ds '-', psplit ts ':' with
    | [ms, dds, ys], [hs, mis, ses] =>
      match parseDigits2 ms, parseDigits2 dds, parseDigits4 ys, parseDigits2 hs,
            parseDigits2 mis, parseDigits2 ses, parseAmPmT ps with
      | some m, some d, some y, some h, some mi, some se, some pm =>
        if 1 ≤ m ∧ m ≤ 12 ∧ 1 ≤ y ∧ 1 ≤ d ∧ d ≤ daysInMonth y m ∧
           1 ≤ h ∧ h ≤ 12 ∧ mi ≤ 59 ∧ se ≤ 59
        then some ⟨m, d, y, h, mi, se, pm⟩ else none
      | _, _, _, _, _, _, _ => none
    | _, _ => none
  | _ => none

/-- The Python exceptions the script can raise per upload; all are caught by
the top-level `except Exception` (lines 180-182) and shown to the user. -/
inductive PyErr where
  | typeError
  | valueError
  | emptyDataError
  | parserError
  | keyError
deriving DecidableEq

/-- The spec's `TableParseFailure` error kind: the participant table block
failed to parse as tabular text. -/
def isTableParseFailure : PyErr → Bool
  | PyErr.emptyDataError => true
  | PyErr.parserError => true
  | _ => false

/-- Lines 71-82: look up and parse `Start time` / `End time`.
`strptime(None, ...)` raises `TypeError`, which the `except ValueError`
handler does not catch, so a missing field escapes as an error; a parse
failure (`ValueError`) is caught and yields `(none, none)` plus the
warning flag. -/
def parseTimestampsE (md : List (String × String)) :
    Except PyErr (Option PyDateTime × Option PyDateTime × Bool) :=
  match dget md ("Start time") with
  | none => Except.error PyErr.typeError
  | some ss =>
    match strptime_mdY ss with
    | none => Except.ok (none, none, true)
    | some t1 =>
      match dget md ("End time") with
      | none => Except.error PyErr.typeError
      | some es =>
        match strptime_mdY es with
        | none => Except.ok (none, none, true)
        | some t2 => Except.ok (some t1, some t2, false)

/-- Line 68: `pd.to_numeric(meeting_metadata.get('Duration (minutes)', 0),
errors='coerce')`, wrapped in `some` when the metadata dict is populated and
`none` (Python `None`, line 62) when it is not. -/
def officialDuration (md : List (String × String)) : Option PFloat :=
  if md = [] then none
  else some (match dget md ("Duration (minutes)") with
             | some s => toNumericP s
             | none => PFloat.rat 0)

/-! ### Table loader (app.py lines 85-101) -/

/-- A pandas DataFrame at the granularity this script needs: column names
plus rows of optional string cells (`none` is NaN/missing). -/
structure Table where
  cols : List String
  rows : List (List (Option String))
deriving DecidableEq

/-- An empty CSV field is read as NaN. -/
def cellOf (f : String) : Option String :=
  if f = "" then none else some f

/-- One data line of `pd.read_csv`: more fields than the header has columns
raises `ParserError`; fewer fields are padded with NaN on the right. -/
def parseCSVRow (n : ℕ) (line : String) : Except PyErr (List (Option String)) :=
  let fs := psplit line ','
  if n < fs.length then Except.error PyErr.parserError
  else Except.ok (fs.map cellOf ++ List.replicate (n - fs.length) none)

def parseRows (n : ℕ) : List String → Except PyErr (List (List (Option String)))
  | [] => Except.ok []
  | l :: ls =>
    match parseCSVRow n l, parseRows n ls with
    | Except.error e, _ => Except.error e
    | Except.ok _, Except.error e => Except.error e
    | Except.ok r, Except.ok rs => Except.ok (r :: rs)

/-- Line 88: `pd.read_csv` over the joined table lines; empty input raises
`EmptyDataError`, the first line is the header. -/
def read_csv : List String → Except PyErr Table
  | [] => Except.error PyErr.emptyDataError
  | h :: rest =>
    let cols := psplit h ','
    match parseRows cols.length rest with
    | Except.error e => Except.error e
    | Except.ok rws => Except.ok ⟨cols, rws⟩

/-- Lines 91-95: the column renaming to canonical names. -/
def renameCol (c : String) : String :=
  if c = "Name (original name)" then "Name"
  else if c = "Email" then "User Email"
  else if c = "Total duration (minutes)" then "Duration (Minutes)"
  else c

/-- `df.columns.get_loc`-style index of a column name. -/
def colIdx (cols : List String) (c : String) : Option ℕ :=
  cols.findIdx? (fun x => x == c)

/-- Python `c in df.columns`. -/
def hasCol (cols : List String) (c : String) : Bool :=
  (colIdx cols c).isSome

/-- `df[c]`: the column as a list of cells, `KeyError` when absent. -/
def getColE (t : Table) (c : String) : Except PyErr (List (Option String)) :=
  match colIdx t.cols c with
  | none => Except.error PyErr.keyError
  | some i => Except.ok (t.rows.map (fun r => r.getD i none))

/-- Line 101 per cell: `pd.to_numeric(..., errors='coerce').fillna(0)`.
A missing cell (NaN) and a failed parse both become 0. -/
def coerceCell (c : Option String) : ℚ :=
  match c with
  | none => 0
  | some s => (parseNumeric s).getD 0

/-- Line 101 over the whole `Duration (Minutes)` column. -/
def coerceDurCol (cells : List (Option String)) : List ℚ :=
  cells.map coerceCell

/-- `Series.nunique()`: distinct non-null values. -/
def nunique (col : List (Option String)) : ℕ :=
  (col.filterMap id).dedup.length

/-! ### Classifier (app.py lines 109-128) -/

/-- `Series.max()` of the coerced duration column: NaN when there are no rows. -/
def maxDur : List ℚ → PFloat
  | [] => PFloat.nan
  | q :: qs => PFloat.rat (qs.foldl max q)

/-- Python truthiness of `meeting_duration_official` on line 109:
`None` and `0` are falsy; any other number, and NaN, are truthy. -/
def truthyOpt : Option PFloat → Bool
  | none => false
  | some (PFloat.rat q) => decide (q ≠ 0)
  | some PFloat.nan => true
  | some PFloat.inf => true
  | some PFloat.ninf => true

/-- Lines 109-110: the reference duration — the official duration when
truthy, else the max observed duration; then `1` when the result equals 0. -/
def reference_duration (official : Option PFloat) (durs : List ℚ) : PFloat :=
  let r0 := if truthyOpt official then official.getD PFloat.nan else maxDur durs
  if r0 = PFloat.rat 0 then PFloat.rat 1 else r0

/-- Line 124: `(d / reference_duration * 100).round(2)` with float semantics
(NaN propagates; a zero rational denominator would give a signed infinity or
NaN, though line 110 makes that unreachable; an infinite denominator gives 0). -/
def attendancePercent (d : ℚ) (ref : PFloat) : PFloat :=
  match ref with
  | PFloat.rat r =>
    if r = 0 then (if d = 0 then PFloat.nan else if 0 < d then PFloat.inf else PFloat.ninf)
    else PFloat.rat (round2 (d / r * 100))
  | PFloat.nan => PFloat.nan
  | PFloat.inf => PFloat.rat 0
  | PFloat.ninf => PFloat.rat 0

/-- Lines 125-127: the percent-based rule. -/
def statusPercentRule (p : PFloat) (thr : ℚ) : String :=
  if pge p thr then "Full Attended" else "Partial Attended"

/-- Lines 125-128: percent-based rule, then the zero-duration override of
line 128 (`df.loc[df['Duration (Minutes)'] == 0, ...] = "Did Not Attend"`). -/
def attendanceStatus (d : ℚ) (p : PFloat) (thr : ℚ) : String :=
  if d = 0 then "Did Not Attend" else statusPercentRule p thr

/-! ### Aggregator (app.py lines 131-135) -/

/-- A classified row: the raw cells plus the computed duration, percent and
status columns. -/
structure CRow where
  cells : List (Option String)
  dur : ℚ
  pct : PFloat
  status : String
deriving DecidableEq

def cellAt (r : CRow) (i : ℕ) : Option String :=
  r.cells.getD i none

def mkCRows : List (List (Option String)) → List ℚ → List PFloat → List String → List CRow
  | r :: rs, d :: ds, p :: ps, s :: ss => ⟨r, d, p, s⟩ :: mkCRows rs ds ps ss
  | _, _, _, _ => []

/-- Pair each row with its deduplication key. -/
def keyed {α β : Type} (f : α → β) (l : List α) : List (β × α) :=
  l.map (fun a => (f a, a))

/-- `drop_duplicates` core: keep a pair when its key has not been seen. -/
def dedupGo {α β : Type} [DecidableEq β] (seen : List β) : List (β × α) → List (β × α)
  | [] => []
  | p :: ps =>
    if p.1 ∈ seen then dedupGo seen ps
    else p :: dedupGo (p.1 :: seen) ps

/-- `df.drop_duplicates(subset=[col])` with `keep='first'`: keep the first
row for each key value, preserving order; pandas treats NaN keys as equal
to each other. -/
def dedupBy {α β : Type} [DecidableEq β] (f : α → β) (l : List α) : List α :=
  (dedupGo [] (keyed f l)).map Prod.snd

/-- Lines 131-135: deduplicate by `User Email` unless that column exists and
is entirely null, in which case deduplicate by `Name` with a warning (the
Bool); `drop_duplicates` on an absent column raises `KeyError`. -/
def dedupStage (cols : List String) (crows : List CRow) : Except PyErr (Bool × List CRow) :=
  match colIdx cols ("User Email") with
  | some i =>
    if crows.all (fun r => decide (cellAt r i = none)) then
      match colIdx cols ("Name") with
      | some j => Except.ok (true, dedupBy (fun r => cellAt r j) crows)
      | none => Except.error PyErr.keyError
    else Except.ok (false, dedupBy (fun r => cellAt r i) crows)
  | none => Except.error PyErr.keyError

/-! ### The per-upload pipeline (app.py lines 16-182) -/

/-- What a successful run renders and exports. -/
structure Output where
  meta : List (String × String)
  startT : Option PyDateTime
  endT : Option PyDateTime
  tsWarn : Bool
  metaWarn : Bool
  cols : List String
  refUsed : PFloat
  total : ℕ
  allRows : List CRow
  emailWarn : Bool
  uniqRows : List CRow
  exportRows : List (Option String × Option String × ℚ × PFloat × String)
deriving DecidableEq

/-- Explicit `Except` sequencing (Python: an uncaught exception aborts the
rest of the `try` block). -/
def exBind {ε α β : Type} : Except ε α → (α → Except ε β) → Except ε β
  | Except.error e, _ => Except.error e
  | Except.ok a, f => f a

/-- The body of the `try` block (lines 16-178), as a function of the file's
lines and the threshold slider value. Steps appear in source order so that
the first raised exception is the one reported. -/
def pipeline (lines : List String) (thr : ℚ) : Except PyErr Output :=
  let ps := splitReport lines
  let md := extractMeta ps.1
  let official := officialDuration md
  exBind (if md = [] then Except.ok (none, none, false) else parseTimestampsE md) (fun ts =>
  exBind (read_csv ps.2) (fun t0 =>
  let t : Table := ⟨t0.cols.map renameCol, t0.rows⟩
  exBind (getColE t ("Duration (Minutes)")) (fun durCells =>
  let durs := coerceDurCol durCells
  let ref := reference_duration official durs
  exBind (if hasCol t.cols ("User Email") then getColE t ("User Email")
          else getColE t ("Name")) (fun idCol =>
  let total := nunique idCol
  let pcts := durs.map (fun d => attendancePercent d ref)
  let stats := List.zipWith (fun d p => attendanceStatus d p thr) durs pcts
  let crows := mkCRows t.rows durs pcts stats
  exBind (dedupStage t.cols crows) (fun dres =>
  exBind (match colIdx t.cols ("Name") with
          | some j => Except.ok j
          | none => Except.error PyErr.keyError) (fun ni =>
  exBind (match colIdx t.cols ("User Email") with
          | some j => Except.ok j
          | none => Except.error PyErr.keyError) (fun ei =>
  Except.ok
    { meta := md
      startT := ts.1
      endT := ts.2.1
      tsWarn := ts.2.2
      metaWarn := decide (md = [])
      cols := t.cols
      refUsed := ref
      total := total
      allRows := crows
      emailWarn := dres.1
      uniqRows := dres.2
      exportRows := dres.2.map (fun r => (cellAt r ni, cellAt r ei, r.dur, r.pct, r.status)) })))))))

/-- Lines 180-182: the top-level handler turns any exception into a
user-visible error message; the process itself keeps running either way. -/
inductive RunResult where
  | rendered (o : Output)
  | errorShown (e : PyErr)

def runUpload (lines : List String) (thr : ℚ) : RunResult :=
  match pipeline lines thr with
  | Except.ok o => RunResult.rendered o
  | Except.error e => RunResult.errorShown e

/-- The error shown to the user, if any. -/
def errOf : RunResult → Option PyErr
  | RunResult.errorShown e => some e
  | RunResult.rendered _ => none

/-- The reference duration a successful run used. -/
def refOf : RunResult → Option PFloat
  | RunResult.rendered o => some o.refUsed
  | RunResult.errorShown _ => none

/-- The coerced duration column of a successful run. -/
def dursOf : RunResult → List ℚ
  | RunResult.rendered o => o.allRows.map CRow.dur
  | RunResult.errorShown _ => []

/-! ### Spec-side definition for claim C3 (refinement comparison) -/

/-- Following the claim's words: the fallback denominator is the maximum
observed duration, or 1 when that is zero. -/
def specMaxFallback (durs : List ℚ) : ℚ :=
  let m := durs.foldr max 0
  if m = 0 then 1 else m

/-- Following the claim's words only (to be compared with
`reference_duration`): use the official meeting duration when it is known
and non-zero, otherwise the maximum observed duration, otherwise 1. -/
def specReferenceDuration (known : Option ℚ) (durs : List ℚ) : ℚ :=
  match known with
  | some q => if q ≠ 0 then q else specMaxFallback durs
  | none => specMaxFallback durs

/-! ### Concrete uploads used to settle individual claims -/

/-- An upload whose metadata `Duration (minutes)` field is non-numeric. -/
def sampleNanDuration : List String :=
  [ "Topic,ID,Host,Duration (minutes),Start time,End time",
    "Demo,123,Alice,abc,01-01-2024 09:00:00 AM,01-01-2024 10:00:00 AM",
    "Name (original name),Email,Total duration (minutes)",
    "Bob,b@x.com,30" ]

/-- An upload whose populated metadata has no `Start time` field. -/
def sampleNoStartTime : List String :=
  [ "Topic,ID,Host", "Demo,123,Alice",
    "Name (original name),Email,Total duration (minutes)", "Bob,b@x,30" ]

/-- An upload with no participant-table marker line. -/
def sampleNoMarker : List String :=
  [ "Topic,ID,Host", "Demo,123,Alice" ]

/-- An upload whose table header starts with the marker but whose second
column is not named exactly `Email`. -/
def sampleNoEmailCol : List String :=
  [ "Name (original name),EmailAddr,Total duration (minutes)", "Bob,b@x,30" ]


/-! ## Claim theorems -/

/-- C1: for every classified row, a zero `DurationMinutes` yields the
`Did Not Attend` status regardless of the threshold (including 0), because
the line-128 override is applied after the percent-based rule. -/
theorem c1_zero_duration_is_did_not_attend (d : ℚ) (ref : PFloat) (thr : ℚ)
    (h : d = 0) :
    attendanceStatus d (attendancePercent d ref) thr = "Did Not Attend" := by
  simp [attendanceStatus, h]

theorem c1_zero_duration_witness :
    attendanceStatus 0 (attendancePercent 0 (PFloat.rat 60)) 0 = "Did Not Attend" :=
  c1_zero_duration_is_did_not_attend 0 (PFloat.rat 60) 0 rfl

/-- C2: for every classified row with positive duration, the status is
`Full Attended` exactly when the rounded attendance percentage compares
at least the threshold under Python float comparison, and otherwise
(comparison false) the status is `Partial Attended`. -/
theorem c2_full_iff_percent_ge (d : ℚ) (ref : PFloat) (thr : ℚ) (h : 0 < d) :
    (attendanceStatus d (attendancePercent d ref) thr = "Full Attended" ↔
      pge (attendancePercent d ref) thr = true)
    ∧ (pge (attendancePercent d ref) thr = false →
        attendanceStatus d (attendancePercent d ref) thr = "Partial Attended") := by
  have hne : d ≠ 0 := ne_of_gt h
  unfold attendanceStatus statusPercentRule
  rw [if_neg hne]
  cases hp : pge (attendancePercent d ref) thr
  · refine ⟨?_, ?_⟩
    · rw [if_neg (by simp [hp])]
      decide
    · intro _
      rw [if_neg (by simp [hp])]
  · refine ⟨?_, ?_⟩
    · rw [if_pos (by simp [hp])]
      decide
    · intro hcontra
      exact Bool.noConfusion hcontra

theorem c2_full_iff_percent_ge_witness :
    ((0 : ℚ) < 45 ∧
      (attendanceStatus 45 (attendancePercent 45 (PFloat.rat 60)) 75 = "Full Attended" ↔
        pge (attendancePercent 45 (PFloat.rat 60)) 75 = true))
    ∧ ((0 : ℚ) < 10 ∧
      (pge (attendancePercent 10 (PFloat.rat 60)) 75 = false →
        attendanceStatus 10 (attendancePercent 10 (PFloat.rat 60)) 75 = "Partial Attended")) :=
  ⟨⟨by norm_num, (c2_full_iff_percent_ge 45 (PFloat.rat 60) 75 (by norm_num)).1⟩,
   ⟨by norm_num, (c2_full_iff_percent_ge 10 (PFloat.rat 60) 75 (by norm_num)).2⟩⟩

/-- C9 counterexample: the claim says the coerced `DurationMinutes` column is
non-negative in every row, but the numeric source value `-5` survives
coercion as `-5`. -/
theorem c9_counterexample :
    coerceDurCol [some ("-5")] = [-5] ∧ ¬ (∀ q ∈ coerceDurCol [some ("-5")], 0 ≤ q) := by
  have hc : coerceDurCol [some ("-5")] = [-5] := rfl
  refine ⟨hc, ?_⟩
  intro hall
  have hm : (-5 : ℚ) ∈ coerceDurCol [some ("-5")] := by
    rw [hc]
    exact List.mem_singleton_self _
  have h5 := hall (-5) hm
  norm_num at h5

/-- C9 amended: after coercion every row holds a number — a missing cell or a
cell that fails numeric coercion becomes exactly 0, and a successfully parsed
value is kept verbatim (so negative source values stay negative; the column
is not guaranteed non-negative). -/
theorem c9_amended (cells : List (Option String)) :
    (coerceDurCol cells).length = cells.length
    ∧ (∀ i : ℕ, cells[i]? = some none → (coerceDurCol cells)[i]? = some 0)
    ∧ (∀ (i : ℕ) (s : String), cells[i]? = some (some s) → parseNumeric s = none →
        (coerceDurCol cells)[i]? = some 0)
    ∧ (∀ (i : ℕ) (s : String) (q : ℚ), cells[i]? = some (some s) → parseNumeric s = some q →
        (coerceDurCol cells)[i]? = some q) := by
  refine ⟨List.length_map _ _, ?_, ?_, ?_⟩
  · intro i hi
    simp [coerceDurCol, List.getElem?_map, hi, coerceCell]
  · intro i s hi hs
    simp [coerceDurCol, List.getElem?_map, hi, coerceCell, hs]
  · intro i s q hi hs
    simp [coerceDurCol, List.getElem?_map, hi, coerceCell, hs]

theorem c9_amended_witness :
    (coerceDurCol [none, some ("abc"), some ("7")]).length = 3
    ∧ (coerceDurCol [none, some ("abc"), some ("7")])[0]? = some 0
    ∧ (coerceDurCol [none, some ("abc"), some ("7")])[1]? = some 0
    ∧ (coerceDurCol [none, some ("abc"), some ("7")])[2]? = some 7 :=
  ⟨(c9_amended [none, some ("abc"), some ("7")]).1,
   (c9_amended [none, some ("abc"), some ("7")]).2.1 0 rfl,
   (c9_amended [none, some ("abc"), some ("7")]).2.2.1 1 ("abc") rfl rfl,
   (c9_amended [none, some ("abc"), some ("7")]).2.2.2 2 ("7") 7 rfl rfl⟩

/-- C3 counterexample: with metadata duration `abc`, the coerced official
duration is NaN, which Python treats as truthy, so the run uses NaN as the
reference duration instead of the maximum observed duration 30 demanded by
the claim. -/
theorem c3_counterexample :
    refOf (runUpload sampleNanDuration 75) = some PFloat.nan
    ∧ dursOf (runUpload sampleNanDuration 75) = [30]
    ∧ specReferenceDuration (parseNumeric ("abc")) [30] = 30
    ∧ PFloat.nan ≠ PFloat.rat 30 := by
  refine ⟨rfl, rfl, rfl, ?_⟩
  intro hcontra
  exact PFloat.noConfusion hcontra

/-- C3 amended: the reference duration is the coerced official duration
whenever that value is truthy — any non-zero number, or NaN from a failed
coercion — so a non-numeric metadata duration propagates NaN instead of
falling back; only a missing mapping or a zero official duration falls back
to the maximum observed duration, with 0 replaced by 1. -/
theorem c3_amended (official : Option PFloat) (durs : List ℚ) :
    (∀ q : ℚ, q ≠ 0 → official = some (PFloat.rat q) →
      reference_duration official durs = PFloat.rat q)
    ∧ (official = some PFloat.nan → reference_duration official durs = PFloat.nan)
    ∧ ((official = none ∨ official = some (PFloat.rat 0)) →
        reference_duration official durs =
          (if maxDur durs = PFloat.rat 0 then PFloat.rat 1 else maxDur durs)) := by
  refine ⟨?_, ?_, ?_⟩
  · intro q hq hof
    subst hof
    simp [reference_duration, truthyOpt, hq]
  · intro hof
    subst hof
    simp [reference_duration, truthyOpt]
  · intro hof
    rcases hof with hof | hof <;> subst hof <;> simp [reference_duration, truthyOpt]

theorem c3_amended_witness :
    reference_duration (some (PFloat.rat 60)) [5] = PFloat.rat 60
    ∧ reference_duration (some PFloat.nan) [30] = PFloat.nan
    ∧ reference_duration none [] =
        (if maxDur [] = PFloat.rat 0 then PFloat.rat 1 else maxDur []) :=
  ⟨(c3_amended (some (PFloat.rat 60)) [5]).1 60 (by norm_num) rfl,
   (c3_amended (some PFloat.nan) [30]).2.1 rfl,
   (c3_amended none []).2.2 (Or.inl rfl)⟩


/-! ### Lemmas about the line-splitting loop -/

/-- A marker line is itself kept by the table-line filter: it is non-blank
and cannot start with "Zoom Report". -/
theorem marker_keepTableLine (l : String) (h : isMarkerLine l = true) :
    keepTableLine l = true := by
  unfold isMarkerLine pstartsWith at h
  unfold keepTableLine pstartsWith
  cases hd : (pstrip l).data with
  | nil =>
    rw [hd] at h
    have hco : ("Name (original name),Email").data =
        'N' :: ("ame (original name),Email").data := rfl
    rw [hco] at h
    simp [List.isPrefixOf] at h
  | cons b bs =>
    rw [hd] at h
    have hco : ("Name (original name),Email").data =
        'N' :: ("ame (original name),Email").data := rfl
    rw [hco] at h
    simp only [List.isPrefixOf, Bool.and_eq_true, beq_iff_eq] at h
    obtain ⟨hb, _⟩ := h
    subst hb
    have hz : ("Zoom Report").data = 'Z' :: ("oom Report").data := rfl
    rw [hz]
    have hzn : (('Z' == 'N') : Bool) = false := by decide
    simp [List.isPrefixOf, List.isEmpty, hzn]

/-- Once the marker has been seen, the loop keeps exactly the lines passing
the table-line filter. -/
theorem splitLoop_true_eq :
    ∀ ls : List String, splitLoop true ls = ([], ls.filter keepTableLine)
  | [] => rfl
  | l :: ls => by
    have ih := splitLoop_true_eq ls
    by_cases hm : isMarkerLine l
    · simp only [splitLoop, hm, if_true, ih, List.filter_cons, marker_keepTableLine l hm]
    · by_cases hk : keepTableLine l
      · simp only [splitLoop, ih, List.filter_cons, hk, if_true]
        simp [hm]
      · simp only [splitLoop, ih, List.filter_cons]
        simp [hm, hk]

/-- Before the marker, every non-marker line is routed to the metadata
block. -/
theorem splitLoop_false_append :
    ∀ (pre rest : List String), (∀ l ∈ pre, isMarkerLine l = false) →
      splitLoop false (pre ++ rest) =
        (pre ++ (splitLoop false rest).1, (splitLoop false rest).2)
  | [], rest, _ => by simp
  | l :: pls, rest, h => by
    have hl : isMarkerLine l = false := h l (List.mem_cons_self _ _)
    have hrec := splitLoop_false_append pls rest (fun x hx => h x (List.mem_cons_of_mem _ hx))
    simp only [List.cons_append, splitLoop, hl]
    simp [hrec]

/-- When no marker line exists, everything is metadata and the table block
is empty. -/
theorem splitReport_no_marker :
    ∀ lines : List String, (∀ l ∈ lines, isMarkerLine l = false) →
      splitReport lines = (lines, [])
  | [], _ => rfl
  | l :: ls, h => by
    have hl : isMarkerLine l = false := h l (List.mem_cons_self _ _)
    have hrec := splitReport_no_marker ls (fun x hx => h x (List.mem_cons_of_mem _ hx))
    unfold splitReport at hrec ⊢
    simp only [splitLoop, hl]
    simp [hrec]

/-- C4: the composite parser routes every line before the first marker line
to the metadata block, and the table block is the marker line followed by
every subsequent non-blank line whose trimmed content does not start with
"Zoom Report". -/
theorem c4_split_characterization (pre : List String) (mline : String) (post : List String)
    (hpre : ∀ l ∈ pre, isMarkerLine l = false) (hm : isMarkerLine mline = true) :
    splitReport (pre ++ mline :: post) = (pre, mline :: post.filter keepTableLine) := by
  unfold splitReport
  rw [splitLoop_false_append pre (mline :: post) hpre]
  have hstep : splitLoop false (mline :: post) = ([], mline :: post.filter keepTableLine) := by
    simp only [splitLoop, hm, if_true]
    simp [splitLoop_true_eq post]
  rw [hstep]
  simp

theorem c4_split_witness :
    splitReport (["Topic,ID,Host"] ++
        ("Name (original name),Email,Total duration (minutes)") ::
          ["Bob,b@x,30", "", "Zoom Report - generated"]) =
      (["Topic,ID,Host"],
        ("Name (original name),Email,Total duration (minutes)") ::
          (["Bob,b@x,30", "", "Zoom Report - generated"].filter keepTableLine))
    ∧ ["Bob,b@x,30", "", "Zoom Report - generated"].filter keepTableLine = ["Bob,b@x,30"] :=
  ⟨c4_split_characterization _ _ _ (by decide) (by decide), by decide⟩

/-- C5 counterexample: the claim says a value line whose comma-count differs
from the field-name line is discarded together with the header, leaving the
metadata empty; but the loop keeps scanning, and here the later line
`x,y,z` is used as the value line, populating the mapping. -/
theorem c5_counterexample :
    extractMeta ["Topic,ID,Host", "a,b", "x,y,z"] =
      [("Topic", "x"), ("ID", "y"), ("Host", "z")]
    ∧ extractMeta ["Topic,ID,Host", "a,b", "x,y,z"] ≠ [] := by
  decide

/-- Auxiliary: a comma split always yields at least one part, so a bound
field-name list is never empty. -/
theorem splitCharAux_ne_nil (sep : Char) :
    ∀ (l acc : List Char), splitCharAux sep l acc ≠ []
  | [], acc => by simp [splitCharAux]
  | c :: cs, acc => by
    unfold splitCharAux
    by_cases h : c == sep
    · simp [h]
    · simp [h, splitCharAux_ne_nil sep cs (c :: acc)]

/-- C5 amended: a step-by-step characterisation of the metadata loop. A
`Topic,ID,Host` line (re-)binds the field names; after the field names are
bound, a blank line or a non-empty line whose comma-count differs from the
current field names is skipped and the scan continues (the mismatched
candidate is not discarded together with the header, and later lines are
used); the first non-empty line whose count matches the current field names
populates the mapping — always non-empty, since field-name lists never are —
and stops the scan; before any field-name line, non-`Topic,ID,Host` lines
are skipped; and the mapping is left empty when the lines are exhausted
without an accepting step. -/
theorem c5_amended :
    (∀ (found : Bool) (hdr : List String) (l : String) (ls : List String),
        pstartsWith (cleanLine l) ("Topic,ID,Host") = true →
        extractMetaGo found hdr (l :: ls) = extractMetaGo true (partsOf (cleanLine l)) ls)
    ∧ (∀ (hdr : List String) (l : String) (ls : List String),
        pstartsWith (cleanLine l) ("Topic,ID,Host") = false →
        ((cleanLine l).data = [] ∨ (partsOf (cleanLine l)).length ≠ hdr.length) →
        extractMetaGo true hdr (l :: ls) = extractMetaGo true hdr ls)
    ∧ (∀ (hdr : List String) (l : String) (ls : List String),
        pstartsWith (cleanLine l) ("Topic,ID,Host") = false →
        (cleanLine l).data ≠ [] →
        (partsOf (cleanLine l)).length = hdr.length →
        extractMetaGo true hdr (l :: ls) = List.zip hdr (partsOf (cleanLine l))
          ∧ (hdr ≠ [] → List.zip hdr (partsOf (cleanLine l)) ≠ []))
    ∧ (∀ (hdr : List String) (l : String) (ls : List String),
        pstartsWith (cleanLine l) ("Topic,ID,Host") = false →
        extractMetaGo false hdr (l :: ls) = extractMetaGo false hdr ls)
    ∧ (∀ (found : Bool) (hdr : List String), extractMetaGo found hdr [] = [])
    ∧ (∀ l : String, partsOf (cleanLine l) ≠ []) := by
  refine ⟨?_, ?_, ?_, ?_, ?_, ?_⟩
  · intro found hdr l ls h1
    simp [extractMetaGo, h1]
  · intro hdr l ls h1 h2
    rcases h2 with h2 | h2
    · simp [extractMetaGo, h1, h2]
    · by_cases hd : (cleanLine l).data = []
      · simp [extractMetaGo, h1, hd]
      · simp [extractMetaGo, h1, hd, h2]
  · intro hdr l ls h1 h2 h3
    refine ⟨by simp [extractMetaGo, h1, h2, h3], ?_⟩
    intro hhdr
    cases hh : hdr with
    | nil => exact absurd hh hhdr
    | cons a hs =>
      cases hp : partsOf (cleanLine l) with
      | nil =>
        have := splitCharAux_ne_nil ',' (cleanLine l).data []
        unfold partsOf psplit at hp
        simp at hp
        exact absurd hp this
      | cons b bs => simp [hh, hp]
  · intro hdr l ls h1
    simp [extractMetaGo, h1]
  · intro found hdr
    rfl
  · intro l
    have := splitCharAux_ne_nil ',' (cleanLine l).data []
    unfold partsOf psplit
    intro hcontra
    simp at hcontra
    exact absurd hcontra this

theorem c5_amended_witness :
    extractMetaGo false [] (("Topic,ID,Host") :: ["a,b", "Topic,ID,Host,X", "p,q,r,s"]) =
      extractMetaGo true (partsOf (cleanLine ("Topic,ID,Host"))) ["a,b", "Topic,ID,Host,X", "p,q,r,s"]
    ∧ extractMetaGo true ["Topic", "ID", "Host"] (("a,b") :: ["Topic,ID,Host,X", "p,q,r,s"]) =
        extractMetaGo true ["Topic", "ID", "Host"] ["Topic,ID,Host,X", "p,q,r,s"]
    ∧ extractMetaGo true ["Topic", "ID", "Host", "X"] (("p,q,r,s") :: []) =
        List.zip ["Topic", "ID", "Host", "X"] (partsOf (cleanLine ("p,q,r,s")))
    ∧ extractMetaGo false ["Topic", "ID", "Host"] (("noise") :: []) =
        extractMetaGo false ["Topic", "ID", "Host"] [] :=
  ⟨c5_amended.1 false [] ("Topic,ID,Host") ["a,b", "Topic,ID,Host,X", "p,q,r,s"] (by decide),
   c5_amended.2.1 ["Topic", "ID", "Host"] ("a,b") ["Topic,ID,Host,X", "p,q,r,s"] (by decide)
     (Or.inr (by decide)),
   (c5_amended.2.2.1 ["Topic", "ID", "Host", "X"] ("p,q,r,s") [] (by decide) (by decide)
     (by decide)).1,
   c5_amended.2.2.2.1 ["Topic", "ID", "Host"] ("noise") [] (by decide)⟩

/-! ### Lemmas about drop_duplicates -/

theorem keyed_fst {α β : Type} (f : α → β) (l : List α) (p : β × α)
    (hp : p ∈ keyed f l) : p.1 = f p.2 := by
  unfold keyed at hp
  rw [List.mem_map] at hp
  obtain ⟨a, _, rfl⟩ := hp
  rfl

theorem dedupGo_sublist {α β : Type} [DecidableEq β] :
    ∀ (seen : List β) (l : List (β × α)), (dedupGo seen l).Sublist l
  | _, [] => by simp [dedupGo]
  | seen, p :: ps => by
    unfold dedupGo
    by_cases h : p.1 ∈ seen
    · rw [if_pos h]
      exact (dedupGo_sublist seen ps).cons p
    · rw [if_neg h]
      exact (dedupGo_sublist (p.1 :: seen) ps).cons₂ p

theorem dedupGo_countP_zero {α β : Type} [DecidableEq β] :
    ∀ (seen : List β) (l : List (β × α)) (k : β), k ∈ seen →
      (dedupGo seen l).countP (fun p => decide (p.1 = k)) = 0
  | _, [], _, _ => by simp [dedupGo]
  | seen, p :: ps, k, hk => by
    unfold dedupGo
    by_cases h : p.1 ∈ seen
    · rw [if_pos h]
      exact dedupGo_countP_zero seen ps k hk
    · rw [if_neg h]
      rw [List.countP_cons]
      have hne : ¬ p.1 = k := fun he => h (he ▸ hk)
      simp [hne, dedupGo_countP_zero (p.1 :: seen) ps k (List.mem_cons_of_mem _ hk)]

theorem dedupGo_countP_le_one {α β : Type} [DecidableEq β] :
    ∀ (seen : List β) (l : List (β × α)) (k : β),
      (dedupGo seen l).countP (fun p => decide (p.1 = k)) ≤ 1
  | _, [], _ => by simp [dedupGo]
  | seen, p :: ps, k => by
    unfold dedupGo
    by_cases h : p.1 ∈ seen
    · rw [if_pos h]
      exact dedupGo_countP_le_one seen ps k
    · rw [if_neg h]
      rw [List.countP_cons]
      by_cases he : p.1 = k
      · subst he
        have h0 := dedupGo_countP_zero (p.1 :: seen) ps p.1 (List.mem_cons_self _ _)
        simp [h0]
      · simp [he, dedupGo_countP_le_one (p.1 :: seen) ps k]

theorem dedupGo_find {α β : Type} [DecidableEq β] :
    ∀ (seen : List β) (l : List (β × α)) (p : β × α), p ∈ dedupGo seen l →
      p.1 ∉ seen ∧ l.find? (fun q => decide (q.1 = p.1)) = some p
  | _, [], p, hp => by simp [dedupGo] at hp
  | seen, q :: qs, p, hp => by
    unfold dedupGo at hp
    by_cases h : q.1 ∈ seen
    · rw [if_pos h] at hp
      obtain ⟨hns, hfind⟩ := dedupGo_find seen qs p hp
      have hne : ¬ (q.1 = p.1) := fun he => hns (he ▸ h)
      refine ⟨hns, ?_⟩
      rw [List.find?_cons_of_neg _ (by simpa using hne)]
      exact hfind
    · rw [if_neg h] at hp
      rcases List.mem_cons.mp hp with he | hm
      · subst he
        refine ⟨h, ?_⟩
        rw [List.find?_cons_of_pos _ (by simp)]
      · obtain ⟨hns, hfind⟩ := dedupGo_find (q.1 :: seen) qs p hm
        have hne : ¬ (q.1 = p.1) := fun he2 => hns (he2 ▸ List.mem_cons_self q.1 seen)
        refine ⟨fun hc => hns (List.mem_cons_of_mem _ hc), ?_⟩
        rw [List.find?_cons_of_neg _ (by simpa using hne)]
        exact hfind

theorem mapsnd_keyed {α β : Type} (f : α → β) :
    ∀ l : List α, (keyed f l).map Prod.snd = l
  | [] => rfl
  | a :: l => by
    have ih := mapsnd_keyed f l
    unfold keyed at ih ⊢
    simp [ih]

theorem dedupBy_sublist {α β : Type} [DecidableEq β] (f : α → β) (l : List α) :
    (dedupBy f l).Sublist l := by
  unfold dedupBy
  have h := (dedupGo_sublist [] (keyed f l)).map Prod.snd
  rwa [mapsnd_keyed f l] at h

theorem dedupBy_countP {α β : Type} [DecidableEq β] (f : α → β) (l : List α) (k : β) :
    (dedupBy f l).countP (fun a => decide (f a = k)) ≤ 1 := by
  unfold dedupBy
  rw [List.countP_map]
  have hcong : ∀ p ∈ dedupGo ([] : List β) (keyed f l),
      ((fun a => decide (f a = k)) ∘ Prod.snd) p = true ↔
        (fun q : β × α => decide (q.1 = k)) p = true := by
    intro p hp
    have hmem : p ∈ keyed f l := (dedupGo_sublist [] (keyed f l)).subset hp
    show decide (f p.2 = k) = true ↔ decide (p.1 = k) = true
    rw [keyed_fst f l p hmem]
  rw [List.countP_congr hcong]
  exact dedupGo_countP_le_one [] (keyed f l) k

theorem dedupBy_first {α β : Type} [DecidableEq β] (f : α → β) (l : List α) (r : α)
    (hr : r ∈ dedupBy f l) :
    l.find? (fun x => decide (f x = f r)) = some r := by
  unfold dedupBy at hr
  rw [List.mem_map] at hr
  obtain ⟨p, hp, hsnd⟩ := hr
  have hmem : p ∈ keyed f l := (dedupGo_sublist [] (keyed f l)).subset hp
  have hfst : p.1 = f p.2 := keyed_fst f l p hmem
  have hfind := (dedupGo_find [] (keyed f l) p hp).2
  unfold keyed at hfind
  rw [List.find?_map] at hfind
  obtain ⟨a, hfa, hga⟩ := Option.map_eq_some'.mp hfind
  have ha2 : a = p.2 := congrArg Prod.snd hga
  subst ha2
  subst hsnd
  have hpred : ((fun q : β × α => decide (q.1 = p.1)) ∘ fun x => (f x, x)) =
      (fun x => decide (f x = f p.2)) := by
    funext x
    show decide (f x = p.1) = decide (f x = f p.2)
    rw [hfst]
  rw [hpred] at hfa
  exact hfa

/-- C8 amended: deduplication keys on `User Email` whenever that column
exists and is not entirely null; when it exists but is entirely null the key
falls back to `Name` with a warning; but when the column does not exist at
all the stage raises `KeyError` instead of falling back. In the two
successful cases the first occurrence per key is kept and the original row
order is preserved. -/
theorem c8_amended (cols : List String) (crows : List CRow) :
    (∀ i : ℕ, colIdx cols ("User Email") = some i →
      crows.all (fun r => decide (cellAt r i = none)) = false →
      dedupStage cols crows = Except.ok (false, dedupBy (fun r => cellAt r i) crows))
    ∧ (∀ i j : ℕ, colIdx cols ("User Email") = some i →
        crows.all (fun r => decide (cellAt r i = none)) = true →
        colIdx cols ("Name") = some j →
        dedupStage cols crows = Except.ok (true, dedupBy (fun r => cellAt r j) crows))
    ∧ (colIdx cols ("User Email") = none →
        dedupStage cols crows = Except.error PyErr.keyError)
    ∧ (∀ f : CRow → Option String, (dedupBy f crows).Sublist crows)
    ∧ (∀ (f : CRow → Option String) (k : Option String),
        (dedupBy f crows).countP (fun r => decide (f r = k)) ≤ 1)
    ∧ (∀ (f : CRow → Option String) (r : CRow), r ∈ dedupBy f crows →
        crows.find? (fun x => decide (f x = f r)) = some r) := by
  refine ⟨?_, ?_, ?_, ?_, ?_, ?_⟩
  · intro i hci hall
    unfold dedupStage
    rw [hci]
    simp [hall]
  · intro i j hci hall hcj
    unfold dedupStage
    rw [hci]
    simp [hall, hcj]
  · intro h
    unfold dedupStage
    rw [h]
  · intro f
    exact dedupBy_sublist f crows
  · intro f k
    exact dedupBy_countP f crows k
  · intro f r hr
    exact dedupBy_first f crows r hr

theorem c8_amended_witness :
    dedupStage ["Name", "User Email"]
        [⟨[some ("Bob"), some ("b@x")], 45, PFloat.rat 75, "Full Attended"⟩,
         ⟨[some ("Bob"), some ("b@x")], 10, PFloat.rat 17, "Partial Attended"⟩] =
      Except.ok (false, dedupBy (fun r => cellAt r 1)
        [⟨[some ("Bob"), some ("b@x")], 45, PFloat.rat 75, "Full Attended"⟩,
         ⟨[some ("Bob"), some ("b@x")], 10, PFloat.rat 17, "Partial Attended"⟩])
    ∧ dedupStage ["Name", "User Email"]
        [⟨[some ("Carol"), none], 0, PFloat.rat 0, "Did Not Attend"⟩] =
      Except.ok (true, dedupBy (fun r => cellAt r 0)
        [⟨[some ("Carol"), none], 0, PFloat.rat 0, "Did Not Attend"⟩])
    ∧ dedupStage ["Name"]
        [⟨[some ("Bob")], 45, PFloat.rat 75, "Full Attended"⟩] =
      Except.error PyErr.keyError :=
  ⟨(c8_amended _ _).1 1 (by decide) (by decide),
   (c8_amended _ _).2.1 1 0 (by decide) (by decide) (by decide),
   (c8_amended _ _).2.2.1 (by decide)⟩

/-- C10: when the `User Email` column exists and is not entirely null,
deduplication treats all missing emails as equal: at most one row with a
missing email survives, and any surviving missing-email row is the first
missing-email row of the input, so distinct participants sharing only the
absence of an email are collapsed into that single record. -/
theorem c10_missing_emails_collapse (cols : List String) (crows : List CRow) (i : ℕ)
    (hcol : colIdx cols ("User Email") = some i)
    (hnotall : crows.all (fun r => decide (cellAt r i = none)) = false) :
    ∃ uniq : List CRow, dedupStage cols crows = Except.ok (false, uniq)
      ∧ uniq.countP (fun r => decide (cellAt r i = none)) ≤ 1
      ∧ (∀ r ∈ uniq, cellAt r i = none →
          crows.find? (fun x => decide (cellAt x i = none)) = some r) := by
  refine ⟨dedupBy (fun r => cellAt r i) crows, ?_, ?_, ?_⟩
  · unfold dedupStage
    rw [hcol]
    simp [hnotall]
  · exact dedupBy_countP (fun r => cellAt r i) crows none
  · intro r hr hnone
    have hfind := dedupBy_first (fun r => cellAt r i) crows r hr
    simpa only [hnone] using hfind

theorem c10_missing_emails_witness :
    ∃ uniq : List CRow,
      dedupStage ["Name", "User Email"]
          [⟨[some ("A"), none], 0, PFloat.rat 0, "Did Not Attend"⟩,
           ⟨[some ("B"), some ("b@x")], 30, PFloat.rat 50, "Partial Attended"⟩,
           ⟨[some ("C"), none], 10, PFloat.rat 17, "Partial Attended"⟩] =
        Except.ok (false, uniq)
      ∧ uniq.countP (fun r => decide (cellAt r 1 = none)) ≤ 1
      ∧ (∀ r ∈ uniq, cellAt r 1 = none →
          [⟨[some ("A"), none], 0, PFloat.rat 0, "Did Not Attend"⟩,
           ⟨[some ("B"), some ("b@x")], 30, PFloat.rat 50, "Partial Attended"⟩,
           ⟨[some ("C"), none], 10, PFloat.rat 17, "Partial Attended"⟩].find?
              (fun x => decide (cellAt x 1 = none)) = some r) :=
  c10_missing_emails_collapse _ _ 1 (by decide) (by decide)


/-! ### Lemmas about the pipeline's error flow -/

/-- The only exception the timestamp step can raise is the `TypeError` from
`strptime(None, ...)`. -/
theorem parseTimestampsE_error_kind (md : List (String × String)) (e : PyErr)
    (h : parseTimestampsE md = Except.error e) : e = PyErr.typeError := by
  cases h1 : dget md ("Start time") with
  | none =>
    simp [parseTimestampsE, h1] at h
    exact h.symm
  | some ss =>
    cases h2 : strptime_mdY ss with
    | none =>
      simp [parseTimestampsE, h1, h2] at h
    | some t1 =>
      cases h3 : dget md ("End time") with
      | none =>
        simp [parseTimestampsE, h1, h2, h3] at h
        exact h.symm
      | some es =>
        cases h4 : strptime_mdY es with
        | none =>
          simp [parseTimestampsE, h1, h2, h3, h4] at h
        | some t2 =>
          simp [parseTimestampsE, h1, h2, h3, h4] at h

/-- A pipeline exception surfaces as the user-visible error of the run. -/
theorem errOf_runUpload_error (lines : List String) (thr : ℚ) (e : PyErr)
    (h : pipeline lines thr = Except.error e) : errOf (runUpload lines thr) = some e := by
  unfold runUpload
  rw [h]
  rfl

/-- C6 counterexample: a populated metadata mapping with no `Start time`
field makes `strptime(None, ...)` raise `TypeError`, which the
`except ValueError` handler does not catch, so the upload ends in the
top-level fatal error — contradicting "this step alone never produces a
fatal error". -/
theorem c6_counterexample :
    extractMeta (splitReport sampleNoStartTime).1 =
      [("Topic", "Demo"), ("ID", "123"), ("Host", "Alice")]
    ∧ dget (extractMeta (splitReport sampleNoStartTime).1) ("Start time") = none
    ∧ errOf (runUpload sampleNoStartTime 75) = some PyErr.typeError :=
  ⟨by decide, by decide, by decide⟩

/-- C6 amended: when both `Start time` and `End time` fields are present,
the step never raises and the two parsed timestamps are absent together
(never exactly one populated), with only a warning on a parse failure. A
missing field aborts the upload with an uncaught `TypeError` only when its
`strptime(None, ...)` call is reached: a missing `Start time` always does;
a missing `End time` does only when `Start time` parsed successfully, since
a malformed `Start time` raises `ValueError` first, which is caught and
yields just the warning with both timestamps absent. -/
theorem c6_amended (md : List (String × String)) :
    (∀ ss es : String, dget md ("Start time") = some ss → dget md ("End time") = some es →
      ∃ p : Option PyDateTime × Option PyDateTime × Bool,
        parseTimestampsE md = Except.ok p ∧ (p.1 = none ↔ p.2.1 = none))
    ∧ (dget md ("Start time") = none →
        parseTimestampsE md = Except.error PyErr.typeError)
    ∧ (∀ (ss : String) (t1 : PyDateTime), dget md ("Start time") = some ss →
        strptime_mdY ss = some t1 → dget md ("End time") = none →
        parseTimestampsE md = Except.error PyErr.typeError)
    ∧ (∀ ss : String, dget md ("Start time") = some ss → strptime_mdY ss = none →
        parseTimestampsE md = Except.ok (none, none, true)) := by
  refine ⟨?_, ?_, ?_, ?_⟩
  · intro ss es h1 h2
    cases hs : strptime_mdY ss with
    | none => exact ⟨(none, none, true), by simp [parseTimestampsE, h1, hs], by simp⟩
    | some t1 =>
      cases he : strptime_mdY es with
      | none => exact ⟨(none, none, true), by simp [parseTimestampsE, h1, h2, hs, he], by simp⟩
      | some t2 =>
        exact ⟨(some t1, some t2, false), by simp [parseTimestampsE, h1, h2, hs, he], by simp⟩
  · intro h1
    simp [parseTimestampsE, h1]
  · intro ss t1 h1 hs h2
    simp [parseTimestampsE, h1, hs, h2]
  · intro ss h1 hs
    simp [parseTimestampsE, h1, hs]

theorem c6_amended_witness :
    (∃ p : Option PyDateTime × Option PyDateTime × Bool,
      parseTimestampsE [("Start time", "bad"), ("End time", "01-01-2024 10:00:00 AM")] =
        Except.ok p ∧ (p.1 = none ↔ p.2.1 = none))
    ∧ parseTimestampsE [("Topic", "Demo")] = Except.error PyErr.typeError
    ∧ parseTimestampsE [("Start time", "bad")] = Except.ok (none, none, true) :=
  ⟨(c6_amended _).1 ("bad") ("01-01-2024 10:00:00 AM") (by decide) (by decide),
   (c6_amended _).2.1 (by decide),
   (c6_amended _).2.2.2 ("bad") (by decide) (by decide)⟩

/-- C7 counterexample: an input without the marker line whose metadata block
nonetheless populates the mapping (missing `Start time`) fails with the
timestamp `TypeError` before the table is ever parsed, so the error produced
is not a `TableParseFailure` as the claim states. -/
theorem c7_counterexample :
    (∀ l ∈ sampleNoMarker, isMarkerLine l = false)
    ∧ errOf (runUpload sampleNoMarker 75) = some PyErr.typeError
    ∧ isTableParseFailure PyErr.typeError = false :=
  ⟨by decide, by decide, rfl⟩

/-- With no marker line the table block is empty, so the run fails at the
timestamp step (when populated metadata makes it raise) or else at
`pd.read_csv` on the empty table block. -/
theorem pipeline_no_marker (lines : List String) (thr : ℚ)
    (h : ∀ l ∈ lines, isMarkerLine l = false) :
    pipeline lines thr =
      (if extractMeta lines = [] then Except.error PyErr.emptyDataError
       else
        match parseTimestampsE (extractMeta lines) with
        | Except.error e => Except.error e
        | Except.ok _ => Except.error PyErr.emptyDataError) := by
  have hsplit : splitReport lines = (lines, []) := splitReport_no_marker lines h
  unfold pipeline
  rw [hsplit]
  by_cases hmd : extractMeta lines = []
  · simp [hmd, exBind, read_csv]
  · cases hts : parseTimestampsE (extractMeta lines) with
    | error e => simp [hmd, hts, exBind]
    | ok p => simp [hmd, hts, exBind, read_csv]

/-- C7 amended: for every input without a marker line the run shows a
user-visible error and renders no chart or summary output, and the process
keeps running; the error is the empty-table parse failure exactly when the
metadata mapping is empty or the timestamp step completes (possibly with a
warning), and it is the timestamp step's `TypeError` exactly when that step
raises (populated mapping whose `Start time` is missing, or whose
`Start time` parses while `End time` is missing). -/
theorem c7_amended (lines : List String) (thr : ℚ)
    (h : ∀ l ∈ lines, isMarkerLine l = false) :
    (extractMeta lines = [] →
      errOf (runUpload lines thr) = some PyErr.emptyDataError)
    ∧ (∀ p : Option PyDateTime × Option PyDateTime × Bool,
        parseTimestampsE (extractMeta lines) = Except.ok p →
        errOf (runUpload lines thr) = some PyErr.emptyDataError)
    ∧ (∀ e : PyErr, extractMeta lines ≠ [] →
        parseTimestampsE (extractMeta lines) = Except.error e →
        errOf (runUpload lines thr) = some e ∧ e = PyErr.typeError)
    ∧ (∃ e : PyErr, errOf (runUpload lines thr) = some e ∧
        (e = PyErr.emptyDataError ∨ e = PyErr.typeError)) := by
  have hpipe := pipeline_no_marker lines thr h
  refine ⟨?_, ?_, ?_, ?_⟩
  · intro hmd
    rw [hmd] at hpipe
    simp only [if_pos rfl] at hpipe
    exact errOf_runUpload_error lines thr _ hpipe
  · intro p hts
    by_cases hmd : extractMeta lines = []
    · rw [if_pos hmd] at hpipe
      exact errOf_runUpload_error lines thr _ hpipe
    · rw [if_neg hmd, hts] at hpipe
      exact errOf_runUpload_error lines thr _ hpipe
  · intro e hmd hts
    rw [if_neg hmd, hts] at hpipe
    exact ⟨errOf_runUpload_error lines thr _ hpipe, parseTimestampsE_error_kind _ _ hts⟩
  · by_cases hmd : extractMeta lines = []
    · rw [if_pos hmd] at hpipe
      exact ⟨PyErr.emptyDataError, errOf_runUpload_error lines thr _ hpipe, Or.inl rfl⟩
    · rw [if_neg hmd] at hpipe
      cases hts : parseTimestampsE (extractMeta lines) with
      | error e =>
        rw [hts] at hpipe
        have he := parseTimestampsE_error_kind _ _ hts
        exact ⟨e, errOf_runUpload_error lines thr _ hpipe, Or.inr he⟩
      | ok p =>
        rw [hts] at hpipe
        exact ⟨PyErr.emptyDataError, errOf_runUpload_error lines thr _ hpipe, Or.inl rfl⟩

theorem c7_amended_witness :
    errOf (runUpload ["just one line"] 75) = some PyErr.emptyDataError
    ∧ errOf (runUpload ["Topic,ID,Host,Start time", "Demo,123,Alice,bad"] 75) =
        some PyErr.emptyDataError
    ∧ (errOf (runUpload ["Topic,ID,Host", "Example,9,Host"] 75) = some PyErr.typeError
        ∧ PyErr.typeError = PyErr.typeError) :=
  ⟨(c7_amended ["just one line"] 75 (by decide)).1 (by decide),
   (c7_amended ["Topic,ID,Host,Start time", "Demo,123,Alice,bad"] 75 (by decide)).2.1
     (none, none, true) rfl,
   (c7_amended ["Topic,ID,Host", "Example,9,Host"] 75 (by decide)).2.2.1
     PyErr.typeError (by decide) rfl⟩

/-- C8 counterexample: a header that begins with the marker but whose second
column is `EmailAddr` produces a table without a `User Email` column; the
dedup stage then calls `drop_duplicates(subset=['User Email'])`, raising
`KeyError` and aborting the upload instead of falling back to `Name`. -/
theorem c8_counterexample :
    hasCol ((psplit ("Name (original name),EmailAddr,Total duration (minutes)") ',').map
        renameCol) ("User Email") = false
    ∧ errOf (runUpload sampleNoEmailCol 75) = some PyErr.keyError :=
  ⟨by decide, by decide⟩

end ZoomSpec
